import Mathlib

/-!
# Verification of `merge_recipes.py`

A shallow embedding of the recipe-merging tool (variant A of the spec):
it scans a folder of mod jars plus a base minecraft jar, extracts recipe
JSON entries, filters them by a modid whitelist and aggregates them into a
mapping from output-item id to the list of recipes producing it.

Modelling conventions:
* JSON values are the inductive `Json` below.  JSON numbers are modelled as
  `Int`: the program never inspects numeric payloads beyond truthiness and
  an `isinstance(_, str)` check, so fractional values are not needed.
* Python exceptions are modelled with `Except PyError`; a function that the
  source allows to raise returns `Except PyError α`, one whose exceptions
  are caught locally returns a plain value.
* Zip archives are association lists from entry path to entry data.  The
  two library interpretations of an entry's bytes (UTF-8 text for
  `f.read().decode('utf-8')`, and the result of the stdlib `json.load`) are
  carried explicitly in `EntryData`, since raw bytes are not modelled.
* `list(set(...))` iterates a Python `set`, whose order is unspecified; the
  model fixes the first-occurrence order (`dedupFirst`).  All claims about
  the extraction result depend only on membership and deduplication.
-/

set_option maxRecDepth 4000

/-- A JSON value as produced by Python's `json.load`. -/
inductive Json where
  | null
  | bool (b : Bool)
  | num (n : Int)
  | str (s : String)
  | arr (elems : List Json)
  | obj (fields : List (String × Json))

/-- The Python exceptions the embedded fragments can raise. -/
inductive PyError where
  | typeError
  | attributeError
  | keyError
  | fileNotFoundError
deriving DecidableEq

/-- First-match association-list lookup (Python `dict` access; keys of dicts
produced by `json.load` are unique, so first-match agrees with `dict`). -/
def lookupS {α : Type} : List (String × α) → String → Option α
  | [], _ => none
  | (k', v) :: rest, k => if k' = k then some v else lookupS rest k

/-- Python truthiness of a JSON value (`if x:`). -/
def truthy : Json → Bool
  | .null => false
  | .bool b => b
  | .num n => n != 0
  | .str s => s != ""
  | .arr elems => !elems.isEmpty
  | .obj fields => !fields.isEmpty

/-- Python `==` between a JSON value and a `str` (used by `in` on lists):
only equal strings compare equal; every other runtime type yields `False`. -/
def jsonEqStr (j : Json) (k : String) : Bool :=
  match j with
  | .str s => s == k
  | _ => false

/-- `needle in hay` for character lists (Python substring test). -/
def substrAux (needle : List Char) : List Char → Bool
  | [] => needle.isEmpty
  | c :: rest => needle.isPrefixOf (c :: rest) || substrAux needle rest

/-- Python `k in j` for a string `k`: key test on dicts, membership on
lists, substring test on strings, `TypeError` on non-containers. -/
def py_contains (j : Json) (k : String) : Except PyError Bool :=
  match j with
  | .obj fields => .ok (lookupS fields k).isSome
  | .arr elems => .ok (elems.any (fun e => jsonEqStr e k))
  | .str s => .ok (substrAux k.data s.data)
  | _ => .error .typeError

/-- Python `j[k]` for a string key `k`: dict lookup (`KeyError` if absent);
`TypeError` on lists and strings (index must be an integer) and on
non-subscriptable values. -/
def subscript (j : Json) (k : String) : Except PyError Json :=
  match j with
  | .obj fields =>
    match lookupS fields k with
    | some v => .ok v
    | none => .error .keyError
  | _ => .error .typeError

/-- Python `d.get(k)`: the value, or `None` when absent. -/
def dictGet (d : List (String × Json)) (k : String) : Json :=
  (lookupS d k).getD .null

/-- `d.get('id') or d.get('item')`: the first operand if truthy, else the
second. -/
def get_id_or_item (d : List (String × Json)) : Json :=
  let a := dictGet d "id"
  if truthy a then a else dictGet d "item"

/-- `rid = d.get('id') or d.get('item'); if rid: outputs.append(rid)`:
the candidate (if truthy) contributed by one id-or-item-bearing dict. -/
def idItemCands (d : List (String × Json)) : List Json :=
  let rid := get_id_or_item d
  if truthy rid then [rid] else []

def isDict : Json → Bool
  | .obj _ => true
  | _ => false

def isList : Json → Bool
  | .arr _ => true
  | _ => false

/-- Condition of the first branch:
`'result' in recipe_json and isinstance(recipe_json['result'], dict)`
(either subexpression may raise). -/
def cond_result (rj : Json) : Except PyError Bool :=
  match py_contains rj "result" with
  | .error e => .error e
  | .ok false => .ok false
  | .ok true =>
    match subscript rj "result" with
    | .error e => .error e
    | .ok v => .ok (isDict v)

/-- Condition of the second branch:
`'results' in recipe_json and isinstance(recipe_json['results'], list)`. -/
def cond_results (rj : Json) : Except PyError Bool :=
  match py_contains rj "results" with
  | .error e => .error e
  | .ok false => .ok false
  | .ok true =>
    match subscript rj "results" with
    | .error e => .error e
    | .ok v => .ok (isList v)

/-- Body of the `results` loop: `rid = r.get('id') or r.get('item')` raises
`AttributeError` when an element `r` is not a dict. -/
def results_ids : List Json → Except PyError (List Json)
  | [] => .ok []
  | r :: rest =>
    match r with
    | .obj d =>
      match results_ids rest with
      | .error e => .error e
      | .ok tail => .ok (idItemCands d ++ tail)
    | _ => .error .attributeError

/-- Candidates contributed by the `output` branch for one `output` value. -/
def output_cands (output : Json) : List Json :=
  match output with
  | .obj d => idItemCands d
  | .str s => [.str s]
  | _ => []

/-- Candidates contributed by one element of the `outputs` iteration. -/
def output_elem_cands (out : Json) : List Json :=
  match out with
  | .obj d => idItemCands d
  | .str s => [.str s]
  | _ => []

/-- Python `for x in j`: list elements; characters of a string (as 1-char
strings); the keys of a dict; `TypeError` otherwise. -/
def py_iter (j : Json) : Except PyError (List Json) :=
  match j with
  | .arr elems => .ok elems
  | .str s => .ok (s.data.map (fun c => .str (String.mk [c])))
  | .obj fields => .ok (fields.map (fun kv => .str kv.1))
  | _ => .error .typeError

/-- The `outputs` candidate list built by the `elif` ladder of
`extract_output_ids`, before the final dedup-and-filter. -/
def extract_candidates (rj : Json) : Except PyError (List Json) :=
  match cond_result rj with
  | .error e => .error e
  | .ok true =>
    match subscript rj "result" with
    | .error e => .error e
    | .ok (.obj d) => .ok (idItemCands d)
    | .ok _ => .ok []
  | .ok false =>
    match cond_results rj with
    | .error e => .error e
    | .ok true =>
      match subscript rj "results" with
      | .error e => .error e
      | .ok (.arr rs) => results_ids rs
      | .ok _ => .ok []
    | .ok false =>
      match py_contains rj "output" with
      | .error e => .error e
      | .ok true =>
        match subscript rj "output" with
        | .error e => .error e
        | .ok out => .ok (output_cands out)
      | .ok false =>
        match py_contains rj "outputs" with
        | .error e => .error e
        | .ok true =>
          match subscript rj "outputs" with
          | .error e => .error e
          | .ok outsv =>
            match py_iter outsv with
            | .error e => .error e
            | .ok outs => .ok ((outs.map output_elem_cands).flatten)
        | .ok false => .ok []

/-- `isinstance(o, str)` filter on a candidate. -/
def asStr : Json → Option String
  | .str s => some s
  | _ => none

/-- Worker for `dedupFirst` (an explicit fold keeping first occurrences). -/
def dedupAux : List String → List String → List String
  | [], acc => acc
  | x :: xs, acc => dedupAux xs (if x ∈ acc then acc else acc ++ [x])

/-- `list(set(...))` modelled with first-occurrence order (Python set order
is unspecified; only membership and distinctness are relied upon). -/
def dedupFirst (l : List String) : List String :=
  dedupAux l []

/-- `extract_output_ids(recipe_json)`:
`return list(set(o for o in outputs if isinstance(o, str)))` after the
`elif` ladder. -/
def extract_output_ids (rj : Json) : Except PyError (List String) :=
  match extract_candidates rj with
  | .error e => .error e
  | .ok cands => .ok (dedupFirst (cands.filterMap asStr))

/-! ## Archives, filesystem and namespace resolution -/

/-- `a.startswith(b)` on strings. -/
def strStartsWith (a b : String) : Bool :=
  b.data.isPrefixOf a.data

/-- `a.endswith(b)` on strings. -/
def strEndsWith (a b : String) : Bool :=
  b.data.reverse.isPrefixOf a.data.reverse

/-- `str.lower()` on one character (`.lower()`; inputs here are ASCII). -/
def pyLowerChar (c : Char) : Char :=
  if 'A' ≤ c ∧ c ≤ 'Z' then Char.ofNat (c.toNat + 32) else c

/-- `s.lower()`. -/
def pyLower (s : String) : String :=
  String.mk (s.data.map pyLowerChar)

/-- Characters after the last `/` (worker for `os.path.basename`). -/
def basenameChars (cs : List Char) : List Char :=
  cs.foldl (fun acc c => if c = '/' then [] else acc ++ [c]) []

/-- `os.path.basename(p)` for POSIX paths. -/
def pyBasename (p : String) : String :=
  String.mk (basenameChars p.data)

/-- `os.path.join(a, b)` for POSIX paths. -/
def pyJoin (a b : String) : String :=
  if strStartsWith b "/" then b
  else if a == "" || strEndsWith a "/" then a ++ b
  else a ++ "/" ++ b

/-- One zip entry's bytes, carried under both library interpretations used
by the program: as UTF-8 text (`f.read().decode('utf-8')`) and as the
result of the stdlib `json.load` (`.error ()` when parsing raises). -/
structure EntryData where
  text : String
  json : Except Unit Json

/-- A zip archive: entries in archive order, addressed by internal path. -/
abbrev Zip : Type := List (String × EntryData)

/-- `z.namelist()`. -/
def namelist (z : Zip) : List String :=
  z.map (fun e => e.1)

/-- `z.open(path)`: the (first) entry with that path, if any. -/
def zopen (z : Zip) (p : String) : Option EntryData :=
  lookupS z p

/-- The observable filesystem: which paths open as zip archives (absent
paths model both missing and corrupt files, where `zipfile.ZipFile`
raises), and which directory paths list which file names (`os.listdir`
raises `FileNotFoundError` on an absent directory). -/
structure FS where
  jars : List (String × Zip)
  dirs : List (String × List String)

/-- `zipfile.ZipFile(p, 'r')` as observed through `FS`. -/
def openZip (fs : FS) (p : String) : Option Zip :=
  lookupS fs.jars p

/-- `os.listdir(d)`. -/
def listdir (fs : FS) (d : String) : Except PyError (List String) :=
  match lookupS fs.dirs d with
  | none => .error .fileNotFoundError
  | some files => .ok files

/-- `\s` of Python `re` (`[ \t\n\r\f\v]`). -/
def isPySpace (c : Char) : Bool :=
  c = ' ' || c = '\t' || c = '\n' || c = '\r' || c = '\x0b' || c = '\x0c'

/-- Try to match the regex `id\s*=\s*"([^"]+)"` at the head of the
character list, returning group 1.  Greedy `[^"]+` deterministically takes
every character up to the next quote, which must exist and be preceded by
at least one non-quote character. -/
def matchIdAt : List Char → Option String
  | 'i' :: 'd' :: rest =>
    match rest.dropWhile isPySpace with
    | '=' :: r2 =>
      match r2.dropWhile isPySpace with
      | '"' :: r4 =>
        let run := r4.takeWhile (fun c => c ≠ '"')
        if run.isEmpty then none
        else if (r4.drop run.length).isEmpty then none
        else some (String.mk run)
      | _ => none
    | _ => none
  | _ => none

/-- `re.search`: try the pattern at each position, leftmost match first. -/
def searchId : List Char → Option String
  | [] => none
  | c :: rest =>
    match matchIdAt (c :: rest) with
    | some m => some m
    | none => searchId rest

/-- `detect_modid_from_toml(toml_content)`: `re.search(r'id\s*=\s*"([^"]+)"', ...)`,
group 1 of the first match, else `None`. -/
def detect_modid_from_toml (toml_content : String) : Option String :=
  searchId toml_content.data

/-- One iteration of the toml loop in `get_modid_from_jar`: open the
candidate descriptor (missing entry raises `KeyError`, caught by
`continue`), decode it, and run `detect_modid_from_toml`; `if modid:` is
`isSome` since a regex group `[^"]+` is never empty. -/
def tryToml (z : Zip) (toml_path : String) : Option String :=
  match zopen z toml_path with
  | none => none
  | some ed => detect_modid_from_toml ed.text

/-- The filename fallback of `get_modid_from_jar`:
`re.split(r'[-_]', os.path.basename(jar_path))[0].lower()` — the characters
before the first hyphen or underscore, lower-cased. -/
def fallback_modid (jar_path : String) : String :=
  pyLower (String.mk ((pyBasename jar_path).data.takeWhile
    (fun c => c ≠ '-' ∧ c ≠ '_')))

/-- `get_modid_from_jar(jar_path)`: try `META-INF/mods.toml` then
`META-INF/neoforge.mods.toml`, else fall back to the filename; `None` when
the archive cannot be opened at all. -/
def get_modid_from_jar (fs : FS) (jar_path : String) : Option String :=
  match openZip fs jar_path with
  | none => none
  | some z =>
    match tryToml z "META-INF/mods.toml" with
    | some modid => some modid
    | none =>
      match tryToml z "META-INF/neoforge.mods.toml" with
      | some modid => some modid
      | none => some (fallback_modid jar_path)

/-- The modid whitelist (`MODID_WHITELIST`). -/
def MODID_WHITELIST : List String :=
  ["minecraft", "create", "mekanism", "immersiveengineering",
   "modern_industrialization", "minecolonies"]

/-- `get_all_recipe_files(zip_file, modid)`: entries under
`data/<modid>/recipes/` or `data/<modid>/recipe/` ending in `.json`. -/
def get_all_recipe_files (z : Zip) (modid : String) : List String :=
  (namelist z).filter (fun f =>
    (strStartsWith f ("data/" ++ modid ++ "/recipes/") ||
     strStartsWith f ("data/" ++ modid ++ "/recipe/")) && strEndsWith f ".json")

/-- The recipe mapping being accumulated: output id ↦ list of recipe
records, in Python dict insertion order. -/
abbrev Recipes : Type := List (String × List Json)

/-- `k in recipes`. -/
def containsKey (m : Recipes) (k : String) : Bool :=
  (lookupS m k).isSome

/-- Extend the list stored under the first occurrence of `k` by `v`
(`recipes[k].extend(v)` / `recipes[k].append(x)` with `v = [x]`). -/
def extendFirst : Recipes → String → List Json → Recipes
  | [], _, _ => []
  | (k', l) :: rest, k, v =>
    if k' = k then (k', l ++ v) :: rest else (k', l) :: extendFirst rest k v

/-- `if out_id not in recipes: recipes[out_id] = []` followed by
`recipes[out_id].append(recipe_json)`. -/
def addRecipe (recipes : Recipes) (out_id : String) (rj : Json) : Recipes :=
  extendFirst (if containsKey recipes out_id then recipes
               else recipes ++ [(out_id, [])]) out_id [rj]

/-- `merged[k].extend(v)` on a `defaultdict(list)`: accessing an absent key
first creates an empty list. -/
def extendAt (m : Recipes) (k : String) (v : List Json) : Recipes :=
  extendFirst (if containsKey m k then m else m ++ [(k, [])]) k v

/-- One iteration of the per-entry loop shared by `extract_recipes_from_zip`
and `extract_vanilla_recipes_from_jar`: read and parse the entry (parse
failures are caught and the entry skipped), extract output ids, and append
the record under each id.  An exception from `extract_output_ids` is not
caught here.  The `if not output_ids: continue` of the source equals
folding over the empty list, and its `isinstance(out_id, dict)` guard is
vacuous since extracted ids are strings. -/
def processRecipeFile (z : Zip) (recipes : Recipes) (rf : String) :
    Except PyError Recipes :=
  match zopen z rf with
  | none => .ok recipes
  | some ed =>
    match ed.json with
    | .error _ => .ok recipes
    | .ok recipe_json =>
      match extract_output_ids recipe_json with
      | .error e => .error e
      | .ok output_ids =>
        .ok (output_ids.foldl (fun r out_id => addRecipe r out_id recipe_json)
              recipes)

/-- The per-entry loop.  An uncaught exception escapes to the surrounding
`except` of the extraction function, which returns the mapping accumulated
so far. -/
def runEntries (z : Zip) : List String → Recipes → Recipes
  | [], recipes => recipes
  | rf :: rest, recipes =>
    match processRecipeFile z recipes rf with
    | .error _ => recipes
    | .ok r => runEntries z rest r

/-- `extract_recipes_from_zip(jar_path)` (the `modid_filter` parameter is
never passed at any call site and defaults to `None`): resolve the modid
(`if not modid:` also rejects an empty string), check the whitelist, then
run the per-entry loop. -/
def extract_recipes_from_zip (fs : FS) (jar_path : String) : Recipes :=
  match openZip fs jar_path with
  | none => []
  | some z =>
    match get_modid_from_jar fs jar_path with
    | none => []
    | some modid =>
      if modid == "" then []
      else if MODID_WHITELIST.contains modid then
        runEntries z (get_all_recipe_files z modid) []
      else []

/-- Entry predicate of the vanilla extractor. -/
def vanillaMatch (p : String) : Bool :=
  strStartsWith p "data/minecraft/recipes/" && strEndsWith p ".json"

/-- `extract_vanilla_recipes_from_jar(jar_path)`: fixed prefix
`data/minecraft/recipes/`, no modid resolution, no whitelist check. -/
def extract_vanilla_recipes_from_jar (fs : FS) (jar_path : String) : Recipes :=
  match openZip fs jar_path with
  | none => []
  | some z => runEntries z ((namelist z).filter vanillaMatch) []

/-- Fold one source dict into the accumulating `defaultdict(list)`. -/
def mergeOne (m : Recipes) (d : Recipes) : Recipes :=
  d.foldl (fun m kv => extendAt m kv.1 kv.2) m

/-- `merge_recipe_dicts(dicts)`. -/
def merge_recipe_dicts (dicts : List Recipes) : Recipes :=
  dicts.foldl mergeOne []

/-- The loop of `main` collecting non-empty per-jar dicts
(`if mod_recipes: all_mod_recipes.append(mod_recipes)`). -/
def collectModRecipes (fs : FS) : List String → List Recipes → List Recipes
  | [], acc => acc
  | p :: rest, acc =>
    let r := extract_recipes_from_zip fs p
    collectModRecipes fs rest (if r.isEmpty then acc else acc ++ [r])

/-- Outcome of `main`: usage message (wrong argument count, no output
written), or the mapping written to `merged_recipes.json`. -/
inductive MainResult where
  | usage
  | wrote (merged : Recipes)

/-- `main()` (named `pyMain` since Lean reserves `main`), as a function of the observable filesystem and `sys.argv`.
The only uncaught exception reachable from `main` is the one raised by
`os.listdir` on the mods folder. -/
def pyMain (fs : FS) (argv : List String) : Except PyError MainResult :=
  match argv with
  | [_, mods_folder, minecraft_jar_path] =>
    match listdir fs mods_folder with
    | .error e => .error e
    | .ok files =>
      let mod_jars := (files.filter (fun f => strEndsWith f ".jar")).map
        (fun f => pyJoin mods_folder f)
      let all_mod_recipes := collectModRecipes fs mod_jars []
      let vanilla := extract_vanilla_recipes_from_jar fs minecraft_jar_path
      let dicts := if vanilla.isEmpty then all_mod_recipes
                   else all_mod_recipes ++ [vanilla]
      .ok (.wrote (merge_recipe_dicts dicts))
  | _ => .ok .usage

/-! ## Measures, invariant predicates and concrete scenarios -/

/-- Length of the list stored under `k` (0 when `k` is absent). -/
def vlen (m : Recipes) (k : String) : Nat :=
  ((lookupS m k).getD []).length

/-- Total number of records stored under `k` by one source dict, counting
every `(key, list)` pair (for dicts with unique keys this is the length of
the list at `k`). -/
def contrib (d : Recipes) (k : String) : Nat :=
  ((d.filter (fun kv => kv.1 == k)).map (fun kv => kv.2.length)).sum

/-- Every value of the mapping is a non-empty list. -/
def allNonEmpty (m : Recipes) : Prop :=
  ∀ kv ∈ m, kv.2 ≠ ([] : List Json)

/-- C1 scenario: an archive with neither `META-INF/mods.toml` nor
`META-INF/neoforge.mods.toml`. -/
def mekAddonZip : Zip :=
  [("data/mekanism_addon/recipes/a.json", ⟨"", .error ()⟩)]

def mekAddonFS : FS :=
  ⟨[("mods/mekanism_addon-1.2.3.jar", mekAddonZip)], []⟩

/-- C2 scenario pieces: a `result` object, with and without a sibling
`results` key. -/
def resultItemA : Json := Json.obj [("item", Json.str "a")]

def fieldsResultAndResults : List (String × Json) :=
  [("result", resultItemA), ("results", Json.arr [Json.obj [("id", Json.str "b")]])]

def fieldsResultOnly : List (String × Json) :=
  [("result", resultItemA)]

/-- C3 scenario: a filesystem without the mods directory. -/
def noDirsFS : FS := ⟨[("minecraft.jar", [])], []⟩

/-- C5 scenario: `create-1.0.jar` with a descriptor naming modid `create`
and a single recipe producing `create:foo`; the base jar is empty. -/
def createFooRecipe : Json :=
  Json.obj [("result", Json.obj [("item", Json.str "create:foo")])]

def createJarZip : Zip :=
  [("META-INF/mods.toml", ⟨"modLoader=\"javafml\"\nid = \"create\"\n", .error ()⟩),
   ("data/create/recipes/foo.json", ⟨"", .ok createFooRecipe⟩)]

def createScenarioFS : FS :=
  ⟨[("mods/create-1.0.jar", createJarZip), ("minecraft.jar", [])],
   [("mods", ["create-1.0.jar", "readme.txt"])]⟩

/-- C7 scenario: an archive whose descriptor modid is not whitelisted. -/
def blockedZip : Zip :=
  [("META-INF/mods.toml", ⟨"id = \"notamod\"", .error ()⟩),
   ("data/notamod/recipes/x.json",
    ⟨"", .ok (Json.obj [("output", Json.str "notamod:x")])⟩)]

def blockedFS : FS :=
  ⟨[("mods/notamod-1.0.jar", blockedZip)], []⟩

/-- C8 scenario: a malformed entry between two well-formed ones. -/
def goodRecipeA : Json := Json.obj [("output", Json.str "create:a")]

def goodRecipeB : Json := Json.obj [("output", Json.str "create:b")]

def mixedZip : Zip :=
  [("data/create/recipes/a.json", ⟨"", .ok goodRecipeA⟩),
   ("data/create/recipes/bad.json", ⟨"\x7b", .error ()⟩),
   ("data/create/recipes/b.json", ⟨"", .ok goodRecipeB⟩)]

/-- C9 scenario: the same vanilla recipe entry inside two base jars that
differ in filename and in the presence of a mod descriptor. -/
def vanillaStoneEntry : String × EntryData :=
  ("data/minecraft/recipes/stone.json",
   ⟨"", .ok (Json.obj [("result", Json.obj [("id", Json.str "minecraft:stone")])])⟩)

def mcJarWithToml : Zip :=
  [("META-INF/mods.toml", ⟨"id = \"somemod\"", .error ()⟩), vanillaStoneEntry]

def mcJarPlain : Zip := [vanillaStoneEntry]

def mcFSWithToml : FS := ⟨[("client.jar", mcJarWithToml)], []⟩

def mcFSPlain : FS := ⟨[("minecraft-1.20.jar", mcJarPlain)], []⟩

/-! ## Helper lemmas -/

theorem lookupS_mem {α : Type} {m : List (String × α)} {k : String} {v : α}
    (h : lookupS m k = some v) : (k, v) ∈ m := by
  induction m with
  | nil => simp [lookupS] at h
  | cons kv rest ih =>
    obtain ⟨k', v'⟩ := kv
    by_cases hk : k' = k
    · subst hk
      simp [lookupS] at h
      subst h
      exact List.mem_cons_self _ _
    · simp only [lookupS, if_neg hk] at h
      exact List.mem_cons_of_mem _ (ih h)

theorem lookupS_append_of_none {α : Type} {m : List (String × α)} {k : String}
    (h : lookupS m k = none) (n : List (String × α)) :
    lookupS (m ++ n) k = lookupS n k := by
  induction m with
  | nil => simp
  | cons kv rest ih =>
    obtain ⟨k', v'⟩ := kv
    by_cases hk : k' = k
    · simp [lookupS, hk] at h
    · simp only [lookupS, if_neg hk] at h ⊢
      exact ih h

theorem lookupS_append_of_some {α : Type} {m : List (String × α)} {k : String} {v : α}
    (h : lookupS m k = some v) (n : List (String × α)) :
    lookupS (m ++ n) k = some v := by
  induction m with
  | nil => simp [lookupS] at h
  | cons kv rest ih =>
    obtain ⟨k', v'⟩ := kv
    by_cases hk : k' = k
    · simp_all [lookupS]
    · simp only [lookupS, if_neg hk] at h ⊢
      exact ih h

theorem lookupS_extendFirst_ne (m : Recipes) (k : String) (v : List Json)
    (k' : String) (h : k' ≠ k) :
    lookupS (extendFirst m k v) k' = lookupS m k' := by
  induction m with
  | nil => rfl
  | cons kv rest ih =>
    obtain ⟨k₁, l₁⟩ := kv
    by_cases h₁ : k₁ = k
    · subst h₁
      have hne : k₁ ≠ k' := fun hh => h hh.symm
      simp [extendFirst, lookupS, if_neg hne]
    · by_cases h₂ : k₁ = k'
      · subst h₂
        simp [extendFirst, if_neg h₁, lookupS]
      · simp only [extendFirst, if_neg h₁, lookupS, if_neg h₂]
        exact ih

theorem lookupS_extendFirst_self (m : Recipes) (k : String) (v l : List Json)
    (h : lookupS m k = some l) :
    lookupS (extendFirst m k v) k = some (l ++ v) := by
  induction m with
  | nil => simp [lookupS] at h
  | cons kv rest ih =>
    obtain ⟨k₁, l₁⟩ := kv
    by_cases h₁ : k₁ = k
    · subst h₁
      simp [lookupS] at h
      subst h
      simp [extendFirst, lookupS]
    · simp only [lookupS, if_neg h₁] at h
      simp only [extendFirst, if_neg h₁, lookupS, if_neg h₁]
      exact ih h

theorem extendFirst_of_not_mem (m : Recipes) (k : String) (ls v : List Json)
    (h : lookupS m k = none) :
    extendFirst (m ++ [(k, ls)]) k v = m ++ [(k, ls ++ v)] := by
  induction m with
  | nil => simp [extendFirst]
  | cons kv rest ih =>
    obtain ⟨k₁, l₁⟩ := kv
    by_cases h₁ : k₁ = k
    · simp [lookupS, h₁] at h
    · simp only [lookupS, if_neg h₁] at h
      simp only [List.cons_append, extendFirst, if_neg h₁]
      exact congrArg ((k₁, l₁) :: ·) (ih h)

theorem mem_extendFirst {m : Recipes} {k : String} {v : List Json}
    {kv : String × List Json} (h : kv ∈ extendFirst m k v) :
    kv ∈ m ∨ ∃ l, kv = (k, l ++ v) := by
  induction m with
  | nil => simp [extendFirst] at h
  | cons hd rest ih =>
    obtain ⟨k₁, l₁⟩ := hd
    by_cases h₁ : k₁ = k
    · subst h₁
      simp only [extendFirst, if_pos rfl] at h
      rcases List.mem_cons.mp h with h | h
      · exact Or.inr ⟨l₁, h⟩
      · exact Or.inl (List.mem_cons_of_mem _ h)
    · simp only [extendFirst, if_neg h₁] at h
      rcases List.mem_cons.mp h with h | h
      · exact Or.inl (h ▸ List.mem_cons_self _ _)
      · rcases ih h with h | h
        · exact Or.inl (List.mem_cons_of_mem _ h)
        · exact Or.inr h

theorem containsKey_some {m : Recipes} {k : String}
    (h : containsKey m k = true) : ∃ l, lookupS m k = some l := by
  unfold containsKey at h
  cases hl : lookupS m k with
  | none => rw [hl] at h; simp at h
  | some l => exact ⟨l, rfl⟩

theorem containsKey_none {m : Recipes} {k : String}
    (h : containsKey m k = false) : lookupS m k = none := by
  unfold containsKey at h
  cases hl : lookupS m k with
  | none => rfl
  | some l => rw [hl] at h; simp at h

theorem extendAt_of_not_contains {m : Recipes} {k : String} (v : List Json)
    (h : containsKey m k = false) :
    extendAt m k v = m ++ [(k, v)] := by
  unfold extendAt
  rw [if_neg (by simp [h])]
  simpa using extendFirst_of_not_mem m k [] v (containsKey_none h)

theorem vlen_extendAt (m : Recipes) (k : String) (v : List Json) (k' : String) :
    vlen (extendAt m k v) k' = vlen m k' + (if k' = k then v.length else 0) := by
  by_cases hc : containsKey m k
  · unfold extendAt
    rw [if_pos (by simp [hc])]
    obtain ⟨l, hl⟩ := containsKey_some hc
    by_cases hk : k' = k
    · subst hk
      unfold vlen
      rw [lookupS_extendFirst_self m k' v l hl, hl]
      simp
    · unfold vlen
      rw [lookupS_extendFirst_ne m k v k' hk, if_neg hk]
      simp
  · rw [extendAt_of_not_contains v (Bool.eq_false_iff.mpr hc)]
    have hn := containsKey_none (Bool.eq_false_iff.mpr hc)
    by_cases hk : k' = k
    · subst hk
      unfold vlen
      rw [lookupS_append_of_none hn, hn]
      simp [lookupS]
    · unfold vlen
      rw [if_neg hk]
      have hkk : ¬ k = k' := fun hh => hk hh.symm
      cases hl : lookupS m k' with
      | none =>
        rw [lookupS_append_of_none hl]
        simp [lookupS, if_neg hkk]
      | some l =>
        rw [lookupS_append_of_some hl]
        simp

theorem vlen_addRecipe (m : Recipes) (k : String) (rj : Json) (k' : String) :
    vlen (addRecipe m k rj) k' = vlen m k' + (if k' = k then 1 else 0) := by
  have h : addRecipe m k rj = extendAt m k [rj] := rfl
  rw [h, vlen_extendAt]
  simp

theorem vlen_foldl_addRecipe (ids : List String) (m : Recipes) (rj : Json)
    (k : String) :
    vlen m k ≤ vlen (ids.foldl (fun r out_id => addRecipe r out_id rj) m) k := by
  induction ids generalizing m with
  | nil => exact Nat.le_refl _
  | cons i rest ih =>
    simp only [List.foldl_cons]
    calc vlen m k ≤ vlen (addRecipe m i rj) k := by
          rw [vlen_addRecipe]; exact Nat.le_add_right _ _
      _ ≤ _ := ih _

theorem vlen_processRecipeFile {z : Zip} {acc : Recipes} {rf : String}
    {r : Recipes} (h : processRecipeFile z acc rf = .ok r) (k : String) :
    vlen acc k ≤ vlen r k := by
  unfold processRecipeFile at h
  split at h
  · injection h with h
    exact h ▸ Nat.le_refl _
  · split at h
    · injection h with h
      exact h ▸ Nat.le_refl _
    · split at h
      · exact absurd h (by simp)
      · injection h with h
        exact h ▸ vlen_foldl_addRecipe _ acc _ k

theorem vlen_runEntries (z : Zip) (rfs : List String) (acc : Recipes)
    (k : String) :
    vlen acc k ≤ vlen (runEntries z rfs acc) k := by
  induction rfs generalizing acc with
  | nil => exact Nat.le_refl _
  | cons rf rest ih =>
    show vlen acc k ≤ vlen (match processRecipeFile z acc rf with
      | .error _ => acc | .ok r => runEntries z rest r) k
    cases hp : processRecipeFile z acc rf with
    | error e => exact Nat.le_refl _
    | ok r => exact Nat.le_trans (vlen_processRecipeFile hp k) (ih r)

theorem vlen_mergeOne (d : Recipes) (m : Recipes) (k : String) :
    vlen (mergeOne m d) k = vlen m k + contrib d k := by
  induction d generalizing m with
  | nil => simp [mergeOne, contrib]
  | cons kv rest ih =>
    obtain ⟨k₁, v₁⟩ := kv
    show vlen (mergeOne (extendAt m k₁ v₁) rest) k = _
    rw [ih, vlen_extendAt]
    by_cases hk : k₁ = k
    · subst hk
      simp [contrib, List.filter_cons, Nat.add_assoc, Nat.add_comm]
    · have hk' : k ≠ k₁ := fun hh => hk hh.symm
      simp [contrib, List.filter_cons, hk, if_neg hk']

theorem vlen_merge_foldl (dicts : List Recipes) (m : Recipes) (k : String) :
    vlen (dicts.foldl mergeOne m) k =
      vlen m k + (dicts.map (fun d => contrib d k)).sum := by
  induction dicts generalizing m with
  | nil => simp
  | cons d rest ih =>
    simp only [List.foldl_cons, List.map_cons, List.sum_cons]
    rw [ih, vlen_mergeOne]
    omega

theorem allNonEmpty_nil : allNonEmpty [] := by
  intro kv hkv
  simp at hkv

theorem allNonEmpty_extendAt {m : Recipes} {k : String} {v : List Json}
    (hm : allNonEmpty m) (hv : v ≠ []) : allNonEmpty (extendAt m k v) := by
  by_cases hc : containsKey m k
  · intro kv hkv
    unfold extendAt at hkv
    rw [if_pos (by simp [hc])] at hkv
    rcases mem_extendFirst hkv with h | ⟨l, rfl⟩
    · exact hm kv h
    · simp [List.append_eq_nil, hv]
  · rw [extendAt_of_not_contains v (Bool.eq_false_iff.mpr hc)]
    intro kv hkv
    rcases List.mem_append.mp hkv with h | h
    · exact hm kv h
    · have hkv2 : kv = (k, v) := List.mem_singleton.mp h
      rw [hkv2]
      exact hv

theorem allNonEmpty_addRecipe {m : Recipes} (k : String) (rj : Json)
    (hm : allNonEmpty m) : allNonEmpty (addRecipe m k rj) := by
  have h : addRecipe m k rj = extendAt m k [rj] := rfl
  rw [h]
  exact allNonEmpty_extendAt hm (by simp)

theorem allNonEmpty_foldl_addRecipe (ids : List String) {m : Recipes} (rj : Json)
    (hm : allNonEmpty m) :
    allNonEmpty (ids.foldl (fun r out_id => addRecipe r out_id rj) m) := by
  induction ids generalizing m with
  | nil => exact hm
  | cons i rest ih =>
    simp only [List.foldl_cons]
    exact ih (allNonEmpty_addRecipe i rj hm)

theorem allNonEmpty_processRecipeFile {z : Zip} {acc : Recipes} {rf : String}
    {r : Recipes} (h : processRecipeFile z acc rf = .ok r)
    (hacc : allNonEmpty acc) : allNonEmpty r := by
  unfold processRecipeFile at h
  split at h
  · injection h with h
    exact h ▸ hacc
  · split at h
    · injection h with h
      exact h ▸ hacc
    · split at h
      · exact absurd h (by simp)
      · injection h with h
        exact h ▸ allNonEmpty_foldl_addRecipe _ _ hacc

theorem allNonEmpty_runEntries (z : Zip) (rfs : List String) {acc : Recipes}
    (hacc : allNonEmpty acc) : allNonEmpty (runEntries z rfs acc) := by
  induction rfs generalizing acc with
  | nil => exact hacc
  | cons rf rest ih =>
    show allNonEmpty (match processRecipeFile z acc rf with
      | .error _ => acc | .ok r => runEntries z rest r)
    cases hp : processRecipeFile z acc rf with
    | error e => exact hacc
    | ok r => exact ih (allNonEmpty_processRecipeFile hp hacc)

theorem allNonEmpty_extract (fs : FS) (jar_path : String) :
    allNonEmpty (extract_recipes_from_zip fs jar_path) := by
  unfold extract_recipes_from_zip
  split
  · exact allNonEmpty_nil
  · split
    · exact allNonEmpty_nil
    · split
      · exact allNonEmpty_nil
      · split
        · exact allNonEmpty_runEntries _ _ allNonEmpty_nil
        · exact allNonEmpty_nil

theorem allNonEmpty_vanilla (fs : FS) (jar_path : String) :
    allNonEmpty (extract_vanilla_recipes_from_jar fs jar_path) := by
  unfold extract_vanilla_recipes_from_jar
  split
  · exact allNonEmpty_nil
  · exact allNonEmpty_runEntries _ _ allNonEmpty_nil

theorem allNonEmpty_mergeOne {m d : Recipes} (hm : allNonEmpty m)
    (hd : allNonEmpty d) : allNonEmpty (mergeOne m d) := by
  induction d generalizing m with
  | nil => exact hm
  | cons kv rest ih =>
    show allNonEmpty (mergeOne (extendAt m kv.1 kv.2) rest)
    have hkv : kv.2 ≠ [] := hd kv (List.mem_cons_self _ _)
    have hrest : allNonEmpty rest := fun e he => hd e (List.mem_cons_of_mem _ he)
    exact ih (allNonEmpty_extendAt hm hkv) hrest

theorem allNonEmpty_merge {dicts : List Recipes}
    (h : ∀ d ∈ dicts, allNonEmpty d) : allNonEmpty (merge_recipe_dicts dicts) := by
  unfold merge_recipe_dicts
  suffices hgen : ∀ m : Recipes, allNonEmpty m → allNonEmpty (dicts.foldl mergeOne m) by
    exact hgen [] allNonEmpty_nil
  induction dicts with
  | nil => intro m hm; exact hm
  | cons d rest ih =>
    intro m hm
    simp only [List.foldl_cons]
    exact ih (fun e he => h e (List.mem_cons_of_mem _ he))
      _ (allNonEmpty_mergeOne hm (h d (List.mem_cons_self _ _)))

theorem allNonEmpty_collect (fs : FS) (paths : List String) {acc : List Recipes}
    (hacc : ∀ d ∈ acc, allNonEmpty d) :
    ∀ d ∈ collectModRecipes fs paths acc, allNonEmpty d := by
  induction paths generalizing acc with
  | nil => exact hacc
  | cons p rest ih =>
    show ∀ d ∈ collectModRecipes fs rest _, allNonEmpty d
    apply ih
    intro d hd
    split at hd
    · exact hacc d hd
    · rcases List.mem_append.mp hd with h | h
      · exact hacc d h
      · simp at h
        exact h ▸ allNonEmpty_extract fs p

theorem dedupAux_nodup (l : List String) (acc : List String)
    (hacc : acc.Nodup) : (dedupAux l acc).Nodup := by
  induction l generalizing acc with
  | nil => exact hacc
  | cons x xs ih =>
    show (dedupAux xs (if x ∈ acc then acc else acc ++ [x])).Nodup
    by_cases hx : x ∈ acc
    · rw [if_pos hx]
      exact ih acc hacc
    · rw [if_neg hx]
      refine ih _ ?_
      simp [List.nodup_append, hacc, hx]

theorem dedupFirst_nodup (l : List String) : (dedupFirst l).Nodup :=
  dedupAux_nodup l [] List.nodup_nil

theorem lookupS_filter_key {α : Type} (z : List (String × α)) (q : String → Bool)
    (k : String) (hq : q k = true) :
    lookupS (z.filter (fun e => q e.1)) k = lookupS z k := by
  induction z with
  | nil => rfl
  | cons e rest ih =>
    obtain ⟨k₁, v₁⟩ := e
    by_cases hk : k₁ = k
    · subst hk
      simp [List.filter_cons, hq, lookupS]
    · by_cases hq₁ : q k₁
      · simp only [List.filter_cons, hq₁, if_pos]
        simp only [lookupS, if_neg hk]
        exact ih
      · simp only [List.filter_cons]
        rw [if_neg (by simp [hq₁])]
        simp only [lookupS, if_neg hk]
        exact ih

theorem filter_map_fst (z : Zip) (q : String → Bool) :
    ((z.map (fun e => e.1)).filter q) = (z.filter (fun e => q e.1)).map (fun e => e.1) := by
  induction z with
  | nil => rfl
  | cons e rest ih =>
    by_cases hq : q e.1
    · simp [List.filter_cons, hq, ih]
    · simp [List.filter_cons, hq, ih]

theorem processRecipeFile_congr {z₁ z₂ : Zip} {rf : String}
    (h : zopen z₁ rf = zopen z₂ rf) (acc : Recipes) :
    processRecipeFile z₁ acc rf = processRecipeFile z₂ acc rf := by
  unfold processRecipeFile
  rw [h]

theorem runEntries_congr {z₁ z₂ : Zip} (rfs : List String)
    (h : ∀ rf ∈ rfs, zopen z₁ rf = zopen z₂ rf) (acc : Recipes) :
    runEntries z₁ rfs acc = runEntries z₂ rfs acc := by
  induction rfs generalizing acc with
  | nil => rfl
  | cons rf rest ih =>
    show (match processRecipeFile z₁ acc rf with
      | .error _ => acc | .ok r => runEntries z₁ rest r) =
      (match processRecipeFile z₂ acc rf with
      | .error _ => acc | .ok r => runEntries z₂ rest r)
    rw [processRecipeFile_congr (h rf (List.mem_cons_self _ _)) acc]
    cases processRecipeFile z₂ acc rf with
    | error e => rfl
    | ok r => exact ih (fun f hf => h f (List.mem_cons_of_mem _ hf)) r

/-! ## Claim theorems -/

/-- C1 (counterexample): for the archive `mekanism_addon-1.2.3.jar` with no
`mods.toml`/`neoforge.mods.toml`, `get_modid_from_jar` returns `"mekanism"`
— `re.split(r'[-_]', filename)[0]` cuts at the first hyphen OR underscore,
whichever comes first (here the underscore) — and not `"mekanism_addon"`
as the claim states. -/
theorem c1_fallback_counterexample :
    get_modid_from_jar mekAddonFS "mods/mekanism_addon-1.2.3.jar" = some "mekanism" ∧
    get_modid_from_jar mekAddonFS "mods/mekanism_addon-1.2.3.jar" ≠ some "mekanism_addon" :=
  ⟨rfl, by decide⟩

/-- C1 (amended): for an archive that contains neither `META-INF/mods.toml`
nor `META-INF/neoforge.mods.toml` and whose filename is
`mekanism_addon-1.2.3.jar`, the fallback namespace is `"mekanism"`: the
filename is split at the first hyphen-or-underscore occurrence (here the
underscore after `mekanism`) and the first piece is lower-cased. -/
theorem c1_fallback_first_separator :
    get_modid_from_jar mekAddonFS "mods/mekanism_addon-1.2.3.jar" = some "mekanism" := rfl

/-- C2: when the top-level `result` key is present with a dict value, the
whole extraction depends only on that dict: any two objects with the same
`result` dict — in particular one with and one without a sibling `results`
key — extract the same output ids, so `results` is ignored. -/
theorem c2_result_branch_priority (kvs₁ kvs₂ d : List (String × Json))
    (h₁ : lookupS kvs₁ "result" = some (Json.obj d))
    (h₂ : lookupS kvs₂ "result" = some (Json.obj d)) :
    extract_output_ids (Json.obj kvs₁) = extract_output_ids (Json.obj kvs₂) := by
  simp [extract_output_ids, extract_candidates, cond_result, py_contains,
    subscript, isDict, h₁, h₂]

/-- C2 (witness): an object with both a `result` dict and a `results` list
extracts the same ids as the object with only the `result` dict, namely
`["a"]` — the id `"b"` inside `results` is ignored. -/
theorem c2_result_branch_priority_witness :
    lookupS fieldsResultAndResults "result" = some resultItemA ∧
    lookupS fieldsResultOnly "result" = some resultItemA ∧
    extract_output_ids (Json.obj fieldsResultAndResults) =
      extract_output_ids (Json.obj fieldsResultOnly) ∧
    extract_output_ids (Json.obj fieldsResultAndResults) = .ok ["a"] :=
  ⟨rfl, rfl,
   c2_result_branch_priority fieldsResultAndResults fieldsResultOnly
     [("item", Json.str "a")] rfl rfl,
   rfl⟩

/-- C3 (counterexample): with no `mods` directory in the filesystem, the
run does not continue with an empty jar list — `os.listdir` raises an
uncaught `FileNotFoundError` and `main` aborts, so neither the base archive
is processed nor any output written. -/
theorem c3_missing_dir_counterexample :
    pyMain noDirsFS ["merge_recipes.py", "mods", "minecraft.jar"] =
      .error PyError.fileNotFoundError := rfl

/-- C3 (amended): if the mods folder named by the first CLI argument does
not exist, `os.listdir` raises and the raised error propagates out of
`main` uncaught: the run aborts instead of continuing with an empty list. -/
theorem c3_missing_dir_raises (fs : FS) (prog mods_folder mc : String)
    (e : PyError) (h : listdir fs mods_folder = .error e) :
    pyMain fs [prog, mods_folder, mc] = .error e := by
  simp [pyMain, h]

/-- C3 (amended, witness). -/
theorem c3_missing_dir_raises_witness :
    listdir noDirsFS "mods" = .error PyError.fileNotFoundError ∧
    pyMain noDirsFS ["merge_recipes.py", "mods", "minecraft.jar"] =
      .error PyError.fileNotFoundError :=
  ⟨rfl, c3_missing_dir_raises noDirsFS "merge_recipes.py" "mods" "minecraft.jar"
    PyError.fileNotFoundError rfl⟩

/-- C4 (counterexample): `extract_output_ids` does not terminate normally
on every JSON value: on `{"results": [1]}` the loop body
`r.get('id')` is executed on the non-dict element `1` and raises
`AttributeError`, instead of discarding the element. -/
theorem c4_results_nondict_counterexample :
    extract_output_ids (Json.obj [("results", Json.arr [Json.num 1])]) =
      .error PyError.attributeError := rfl

/-- C4 (amended): whenever `extract_output_ids` returns normally, the
returned list is deduplicated (and by construction contains only strings,
every non-string candidate having been discarded by the final
`isinstance(o, str)` filter); but a non-object element inside a `results`
list (unlike inside `outputs`) raises an `AttributeError` rather than
being discarded. -/
theorem c4_ok_nodup (j : Json) (l : List String)
    (h : extract_output_ids j = .ok l) : l.Nodup := by
  unfold extract_output_ids at h
  cases hc : extract_candidates j with
  | error e => rw [hc] at h; exact absurd h (by simp)
  | ok cands =>
    rw [hc] at h
    injection h with h
    exact h ▸ dedupFirst_nodup _

/-- C4 (amended, witness): duplicate and non-string candidates in an
`outputs` list collapse to the deduplicated string list `["a"]`. -/
theorem c4_ok_nodup_witness :
    extract_output_ids
      (Json.obj [("outputs", Json.arr [Json.str "a", Json.str "a", Json.num 3])]) =
      .ok ["a"] ∧
    (["a"] : List String).Nodup :=
  ⟨rfl, c4_ok_nodup
    (Json.obj [("outputs", Json.arr [Json.str "a", Json.str "a", Json.num 3])])
    ["a"] rfl⟩

/-- C5: for `create-1.0.jar` with `META-INF/mods.toml` containing
`id = "create"` and the single entry `data/create/recipes/foo.json` holding
`{"result": {"item": "create:foo"}}` (base jar empty), the merged output is
exactly the key `"create:foo"` mapped to the one-element list with that
parsed recipe object. -/
theorem c5_create_scenario :
    pyMain createScenarioFS ["merge_recipes.py", "mods", "minecraft.jar"] =
      .ok (.wrote [("create:foo", [createFooRecipe])]) := rfl

/-- C7: an archive whose resolved modid is not in the whitelist contributes
nothing: `extract_recipes_from_zip` returns the empty mapping, so no
(key, record) pair from that archive can reach the merged output. -/
theorem c7_whitelist_blocks (fs : FS) (jar_path modid : String)
    (hm : get_modid_from_jar fs jar_path = some modid)
    (hw : MODID_WHITELIST.contains modid = false) :
    extract_recipes_from_zip fs jar_path = [] := by
  cases ho : openZip fs jar_path with
  | none => simp [extract_recipes_from_zip, ho]
  | some z =>
    have hw' : modid ∉ MODID_WHITELIST := by simpa using hw
    by_cases he : modid == ""
    · simp [extract_recipes_from_zip, ho, hm, he]
    · simp [extract_recipes_from_zip, ho, hm, he, hw']

/-- C7 (witness): the archive `notamod-1.0.jar` resolves to modid
`"notamod"`, which is not whitelisted, and contributes nothing. -/
theorem c7_whitelist_blocks_witness :
    get_modid_from_jar blockedFS "mods/notamod-1.0.jar" = some "notamod" ∧
    MODID_WHITELIST.contains "notamod" = false ∧
    extract_recipes_from_zip blockedFS "mods/notamod-1.0.jar" = [] :=
  ⟨rfl, rfl, c7_whitelist_blocks blockedFS "mods/notamod-1.0.jar" "notamod" rfl rfl⟩

/-- C8: an entry whose bytes fail to parse as JSON is skipped and the loop
continues: running the entry list with the failing entry present gives
exactly the same mapping as running it with the failing entry removed, so
every sibling entry (before or after, in this or any other archive) still
contributes as usual and the run completes. -/
theorem c8_parse_error_skips (z : Zip) (rf : String) (ed : EntryData)
    (l₁ l₂ : List String) (acc : Recipes)
    (hopen : zopen z rf = some ed) (hbad : ed.json = .error ()) :
    runEntries z (l₁ ++ rf :: l₂) acc = runEntries z (l₁ ++ l₂) acc := by
  induction l₁ generalizing acc with
  | nil =>
    show (match processRecipeFile z acc rf with
      | .error _ => acc | .ok r => runEntries z l₂ r) = runEntries z l₂ acc
    have hp : processRecipeFile z acc rf = .ok acc := by
      simp only [processRecipeFile, hopen, hbad]
    rw [hp]
  | cons a l₁ ih =>
    show (match processRecipeFile z acc a with
      | .error _ => acc | .ok r => runEntries z (l₁ ++ rf :: l₂) r) =
      (match processRecipeFile z acc a with
      | .error _ => acc | .ok r => runEntries z (l₁ ++ l₂) r)
    cases processRecipeFile z acc a with
    | error e => rfl
    | ok r => exact ih r

/-- C8 (witness): with a malformed entry between two well-formed ones, the
archive yields the same mapping as without it, and both well-formed
siblings contribute their records. -/
theorem c8_parse_error_skips_witness :
    zopen mixedZip "data/create/recipes/bad.json" = some ⟨"\x7b", .error ()⟩ ∧
    (EntryData.mk "\x7b" (.error ())).json = .error () ∧
    runEntries mixedZip
      ["data/create/recipes/a.json", "data/create/recipes/bad.json",
       "data/create/recipes/b.json"] [] =
      runEntries mixedZip
        ["data/create/recipes/a.json", "data/create/recipes/b.json"] [] ∧
    runEntries mixedZip
      ["data/create/recipes/a.json", "data/create/recipes/b.json"] [] =
      [("create:a", [goodRecipeA]), ("create:b", [goodRecipeB])] :=
  ⟨rfl, rfl,
   c8_parse_error_skips mixedZip "data/create/recipes/bad.json" ⟨"\x7b", .error ()⟩
     ["data/create/recipes/a.json"] ["data/create/recipes/b.json"] [] rfl rfl,
   rfl⟩

/-- C6: aggregation never overwrites.  (1) `merge_recipe_dicts` appends:
the list stored under any key `k` in the merged mapping has exactly the
summed length of the contributions of every source dict, hence at least
the number of contributing records.  (2) Within one archive, the per-entry
loop only ever appends: the list under any key never shrinks as entries
(mod archives first, the base archive under the same rule afterwards) are
processed. -/
theorem c6_append_no_overwrite :
    (∀ (dicts : List Recipes) (k : String),
        vlen (merge_recipe_dicts dicts) k =
          (dicts.map (fun d => contrib d k)).sum) ∧
    (∀ (z : Zip) (rfs : List String) (acc : Recipes) (k : String),
        vlen acc k ≤ vlen (runEntries z rfs acc) k) := by
  constructor
  · intro dicts k
    unfold merge_recipe_dicts
    rw [vlen_merge_foldl]
    simp [vlen, lookupS]
  · exact vlen_runEntries

/-- C9: the base archive is processed under the fixed namespace
`minecraft`: the vanilla extraction depends only on the archive's entries
under `data/minecraft/recipes/` ending in `.json` — the jar's filename,
any `META-INF` descriptor, and all other entries are irrelevant, and no
whitelist test is consulted. -/
theorem c9_vanilla_fixed_namespace (fs₁ fs₂ : FS) (p₁ p₂ : String)
    (z₁ z₂ : Zip)
    (h₁ : openZip fs₁ p₁ = some z₁) (h₂ : openZip fs₂ p₂ = some z₂)
    (hz : z₁.filter (fun e => vanillaMatch e.1) =
          z₂.filter (fun e => vanillaMatch e.1)) :
    extract_vanilla_recipes_from_jar fs₁ p₁ =
      extract_vanilla_recipes_from_jar fs₂ p₂ := by
  simp only [extract_vanilla_recipes_from_jar, h₁, h₂]
  have hfiles : (namelist z₁).filter vanillaMatch =
      (namelist z₂).filter vanillaMatch := by
    unfold namelist
    rw [filter_map_fst, filter_map_fst, hz]
  rw [hfiles]
  apply runEntries_congr
  intro rf hrf
  rcases List.mem_map.mp ((filter_map_fst z₂ vanillaMatch ▸ hrf)) with ⟨e, he, rfl⟩
  have hv : vanillaMatch e.1 = true := (List.mem_filter.mp he).2
  show lookupS z₁ e.1 = lookupS z₂ e.1
  rw [← lookupS_filter_key z₁ (fun p => vanillaMatch p) e.1 hv, hz,
    lookupS_filter_key z₂ (fun p => vanillaMatch p) e.1 hv]

/-- C9 (witness): the same vanilla entry inside two differently named jars,
one of which also carries a mod descriptor, yields the same extraction. -/
theorem c9_vanilla_fixed_namespace_witness :
    openZip mcFSWithToml "client.jar" = some mcJarWithToml ∧
    openZip mcFSPlain "minecraft-1.20.jar" = some mcJarPlain ∧
    mcJarWithToml.filter (fun e => vanillaMatch e.1) =
      mcJarPlain.filter (fun e => vanillaMatch e.1) ∧
    extract_vanilla_recipes_from_jar mcFSWithToml "client.jar" =
      extract_vanilla_recipes_from_jar mcFSPlain "minecraft-1.20.jar" :=
  ⟨rfl, rfl, rfl,
   c9_vanilla_fixed_namespace mcFSWithToml mcFSPlain "client.jar"
     "minecraft-1.20.jar" mcJarWithToml mcJarPlain rfl rfl rfl⟩

/-- C10: in the mapping written by a completed run, every value is a
non-empty list: keys are created only at the moment a record is appended
under them, and merging only extends with the (non-empty) lists of the
per-archive dicts. -/
theorem c10_merged_values_nonempty (fs : FS) (argv : List String)
    (merged : Recipes) (k : String) (l : List Json)
    (hmain : pyMain fs argv = .ok (.wrote merged))
    (hk : lookupS merged k = some l) : l ≠ [] := by
  rcases argv with _ | ⟨a₀, _ | ⟨a₁, _ | ⟨a₂, _ | ⟨a₃, rest⟩⟩⟩⟩
  · simp [pyMain] at hmain
  · simp [pyMain] at hmain
  · simp [pyMain] at hmain
  case cons.cons.cons.nil =>
    simp only [pyMain] at hmain
    cases hl : listdir fs a₁ with
    | error e => rw [hl] at hmain; exact absurd hmain (by simp)
    | ok files =>
      rw [hl] at hmain
      simp only [Except.ok.injEq, MainResult.wrote.injEq] at hmain
      have hall : allNonEmpty merged := by
        rw [← hmain]
        apply allNonEmpty_merge
        intro d hd
        split at hd
        · exact allNonEmpty_collect fs _ (fun e he => absurd he (by simp)) d hd
        · rcases List.mem_append.mp hd with h | h
          · exact allNonEmpty_collect fs _ (fun e he => absurd he (by simp)) d h
          · have hdv : d = extract_vanilla_recipes_from_jar fs a₂ :=
              List.mem_singleton.mp h
            exact hdv ▸ allNonEmpty_vanilla fs a₂
      exact hall (k, l) (lookupS_mem hk)
  · simp [pyMain] at hmain

/-- C10 (witness): in the run of the C5 scenario the only value is the
one-element (hence non-empty) list under `"create:foo"`. -/
theorem c10_merged_values_nonempty_witness :
    pyMain createScenarioFS ["merge_recipes.py", "mods", "minecraft.jar"] =
      .ok (.wrote [("create:foo", [createFooRecipe])]) ∧
    lookupS [("create:foo", [createFooRecipe])] "create:foo" =
      some [createFooRecipe] ∧
    [createFooRecipe] ≠ ([] : List Json) :=
  ⟨rfl, rfl,
   c10_merged_values_nonempty createScenarioFS
     ["merge_recipes.py", "mods", "minecraft.jar"]
     [("create:foo", [createFooRecipe])] "create:foo" [createFooRecipe] rfl rfl⟩
